import Mathlib

/-!
Verification of the prover-server data pool and witness-preparation pipeline
(`core/server/src/prover_server/pool.rs`).

The pool and maintainer logic is embedded directly from the source.  External
collaborators (the storage layer, the per-operation-type witness capabilities
from the `circuit` crate, and the `WitnessBuilder` accumulator methods) are
modelled as abstract function records over which the theorems quantify.
Machine integers: block numbers are `u32` (modelled as `Nat`, with explicit
`% 2^32` where overflow matters); the pool counters are `i64` (modelled as
`Int`; their values stay far from the 64-bit bounds in all statements here,
so no wrap-around modelling is needed for them).
`HashMap`s are modelled as association lists; the list order of the
`operations` map models the (arbitrary) iteration order of the Rust
`HashMap`, which the source's key-scanning loop depends on.
-/

namespace ZkPool

/-- Abstract field element (root hashes, commitments). External type. -/
abbrev Fr := Nat

/-- Abstract circuit sub-operation. External type. -/
abbrev SubOp := Nat

/-- Abstract per-operation witness value returned by the `apply_*_tx`
external capabilities. -/
abbrev Wit := Nat

/-- Abstract bundle `(first_sig_msg, second_sig_msg, third_sig_msg,
signature_data, signer_packed_key_bits)` returned by `prepare_sig_data`. -/
abbrev SigData := Nat

/-- Abstract `CircuitAccountTree` state. External type: the witness
capabilities thread it through and `root_hash` observes it. -/
abbrev CATree := Nat

/-- Abstract ledger account record. -/
abbrev Account := Nat

/-- Account mapping: account id to account record. -/
abbrev AccountMap := List (Nat × Account)

/-- Modelled from the spec: a state diff is an ordered list of account
mutations (set account id to a record, or remove it); `apply_updates` from
`models::node` (outside the provided sources) applies them in order. -/
abbrev StateDiff := List (Nat × Option Account)

/-- Modelled from the spec: `models::node::apply_updates` applies the diff's
mutations to the mapping in order (left fold). -/
def apply_updates (m : AccountMap) (d : StateDiff) : AccountMap :=
  d.foldl
    (fun acc u =>
      match u.2 with
      | some a => (u.1, a) :: acc.filter (fun e => e.1 ≠ u.1)
      | none => acc.filter (fun e => e.1 ≠ u.1))
    m

/-- Association-list lookup, modelling `HashMap::get`. -/
def alGet {κ α : Type} [DecidableEq κ] : List (κ × α) → κ → Option α
  | [], _ => none
  | e :: rest, k => if e.1 = k then some e.2 else alGet rest k

/-- Association-list removal, modelling `HashMap::remove` (keys are unique
in a `HashMap`, so removing the first occurrence is faithful). -/
def alRemove {κ α : Type} [DecidableEq κ] : List (κ × α) → κ → List (κ × α)
  | [], _ => []
  | e :: rest, k => if e.1 = k then rest else e :: alRemove rest k

/-- Association-list insertion, modelling `HashMap::insert` (replaces any
existing entry at the key). -/
def alInsert {κ α : Type} [DecidableEq κ] (l : List (κ × α)) (k : κ) (v : α) :
    List (κ × α) :=
  (k, v) :: alRemove l k

/-- Block header data of a committed operation: `op.block.block_number`
(`u32`), `op.block.fee_account` (`u32`), `op.block.new_root_hash`. -/
structure Block where
  block_number : Nat
  fee_account : Nat
  new_root_hash : Fr
  deriving DecidableEq

/-- `models::Operation`: a committed block awaiting proof (only the fields
read by this module are represented). -/
structure Operation where
  block : Block
  deriving DecidableEq

/-- `prover::prover_data::ProverData`: the immutable output bundle. -/
structure ProverData where
  public_data_commitment : Fr
  old_root : Fr
  new_root : Fr
  validator_address : Fr
  operations : List SubOp
  validator_balances : Nat
  validator_audit_path : Nat
  validator_account : Nat
  deriving DecidableEq

/-- `ProversDataPool`: four counters plus the two maps (`HashMap`s modelled
as association lists; the list order of `operations` models the arbitrary
`HashMap` iteration order). -/
structure ProversDataPool where
  last_prepared : Int
  last_loaded : Int
  limit : Int
  operations : List (Int × Operation)
  prepared : List (Int × ProverData)
  deriving DecidableEq

/-- `ProversDataPool::new()`. -/
def ProversDataPool.new : ProversDataPool :=
  { last_prepared := 0
    last_loaded := 0
    limit := 10
    operations := []
    prepared := [] }

/-- `ProversDataPool::get`. -/
def ProversDataPool.get (p : ProversDataPool) (block : Int) : Option ProverData :=
  alGet p.prepared block

/-- `ProversDataPool::clean_up`. -/
def ProversDataPool.clean_up (p : ProversDataPool) (block : Int) : ProversDataPool :=
  { p with prepared := alRemove p.prepared block }

/-- `ProversDataPool::has_capacity`:
`self.last_loaded - self.last_prepared + (self.prepared.len() as i64) < self.limit`. -/
def ProversDataPool.has_capacity (p : ProversDataPool) : Bool :=
  p.last_loaded - p.last_prepared + (p.prepared.length : Int) < p.limit

/-- `ProversDataPool::all_prepared`: `self.operations.is_empty()`. -/
def ProversDataPool.all_prepared (p : ProversDataPool) : Bool :=
  p.operations.isEmpty

/-- `ProversDataPool::store_to_prove`. -/
def ProversDataPool.store_to_prove (p : ProversDataPool) (op : Operation) :
    ProversDataPool :=
  { p with
    last_loaded := (op.block.block_number : Int)
    operations := alInsert p.operations (op.block.block_number : Int) op }

/-- The key-scanning loop of `take_next_to_prove`: starting from the sentinel
`first_from_loaded = 0`, replace it by any key that is smaller or whenever the
accumulator still equals `0`. -/
def findFirst (keys : List Int) : Int :=
  keys.foldl (fun first k => if first = 0 ∨ k < first then k else first) 0

/-- `ProversDataPool::take_next_to_prove`: scan the keys with the sentinel
loop, then `HashMap::remove` the found key; a missing key yields the
`"data is inconsistent"` error. -/
def ProversDataPool.take_next_to_prove (p : ProversDataPool) :
    Except String (Operation × ProversDataPool) :=
  let first := findFirst (p.operations.map Prod.fst)
  match alGet p.operations first with
  | some v => .ok (v, { p with operations := alRemove p.operations first })
  | none => .error ("data is inconsistent")

/-- Folding `store_to_prove` over a storage-returned batch, as the loop in
`take_next_commits` does. -/
def storeAll (p : ProversDataPool) (ops : List Operation) : ProversDataPool :=
  ops.foldl ProversDataPool.store_to_prove p

/-- `prepare_next`, with the per-block preparation (`build_prover_data` plus
its storage access) abstracted as the fallible `build` argument: check
`all_prepared` first, otherwise take the next operation, build its data,
bump `last_prepared` and insert the result into `prepared`. -/
def prepare_next (build : Operation → Except String ProverData)
    (p : ProversDataPool) : Except String ProversDataPool :=
  if p.all_prepared then .ok p
  else
    match p.take_next_to_prove with
    | .error e => .error e
    | .ok (op, p1) =>
      match build op with
      | .error e => .error e
      | .ok pd =>
        .ok { p1 with
              last_prepared := p1.last_prepared + 1
              prepared := alInsert p1.prepared (op.block.block_number : Int) pd }

/-- The bounded quantity of the look-ahead invariant:
`(last_loaded - last_prepared) + prepared.len()`. -/
def poolQuantity (p : ProversDataPool) : Int :=
  p.last_loaded - p.last_prepared + (p.prepared.length : Int)

/-- `ops` carries exactly the contiguous block numbers `next, next+1, ...`. -/
def contiguousBlocks (next : Int) : List Operation → Bool
  | [] => true
  | op :: rest =>
    ((op.block.block_number : Int) == next) && contiguousBlocks (next + 1) rest

/-- One observable step of the system on the pool state: a `take_next_commits`
batch load (guarded by the `has_capacity` check of the maintainer cycle,
batch bounded by `limit` as passed to `load_unverified_commits_after_block`,
block numbers contiguous after `last_loaded`), a `prepare_next` step
(empty-pool early return, successful preparation, or preparation failure that
kills the worker after the operation was already taken), or a consumer
`clean_up` call. -/
inductive PoolStep : ProversDataPool → ProversDataPool → Prop where
  | load (p : ProversDataPool) (ops : List Operation)
      (hcap : p.has_capacity = true)
      (hlen : (ops.length : Int) ≤ p.limit)
      (hcontig : contiguousBlocks (p.last_loaded + 1) ops = true) :
      PoolStep p (storeAll p ops)
  | prepare_empty (p : ProversDataPool)
      (h : p.all_prepared = true) : PoolStep p p
  | prepare_success (p p1 : ProversDataPool) (v : Operation) (pd : ProverData)
      (h : p.all_prepared = false)
      (htake : p.take_next_to_prove = .ok (v, p1)) :
      PoolStep p
        { p1 with
          last_prepared := p1.last_prepared + 1
          prepared := alInsert p1.prepared (v.block.block_number : Int) pd }
  | prepare_fail (p p1 : ProversDataPool) (v : Operation)
      (h : p.all_prepared = false)
      (htake : p.take_next_to_prove = .ok (v, p1)) :
      PoolStep p p1
  | clean (p : ProversDataPool) (b : Int) :
      PoolStep p (p.clean_up b)

/-- Helper to build a concrete committed operation for block `n`. -/
def mkOp (n : Nat) : Operation :=
  { block := { block_number := n, fee_account := 0, new_root_hash := 0 } }

/-- Concrete pool exhibiting the sentinel flaw of `take_next_to_prove`:
block number `0` pending together with block `5`, with `HashMap` iteration
visiting key `0` first. -/
def c4pool : ProversDataPool :=
  { ProversDataPool.new with operations := [(0, mkOp 0), (5, mkOp 5)] }

/-- The first storage batch of the violating trace: blocks `1..9`. -/
def c1batch1 : List Operation := (List.range 9).map (fun i => mkOp (1 + i))

/-- The second storage batch of the violating trace: blocks `10..19`. -/
def c1batch2 : List Operation := (List.range 10).map (fun i => mkOp (10 + i))

/-- Pool after loading blocks `1..9` into a fresh pool. -/
def c1pool1 : ProversDataPool := storeAll ProversDataPool.new c1batch1

/-- Pool after additionally loading blocks `10..19`. -/
def c1pool2 : ProversDataPool := storeAll c1pool1 c1batch2

/-! ## Witness-building pipeline: data model -/

/-- Distinguishes the three ways `build_prover_data` can end: a returned
value, a recoverable `Result::Err` (propagated with the question-mark
operator), and a panic (`assert_eq!` / `expect` / `unwrap`), which in the
source kills the worker thread. -/
inductive BResult (α : Type) where
  | ok (a : α)
  | err (msg : String)
  | fatal (msg : String)
  deriving DecidableEq

/-- Transaction signature container: the opaque signature object (consumed
by `serialize_packed`) plus the signer public key. -/
structure TxSig where
  signature : Nat
  pub_key : Nat
  deriving DecidableEq

/-- A signature-bearing transaction: signature container, fee token and
amount, and the canonical byte encoding returned by `get_bytes()`. -/
structure SigTx where
  signature : TxSig
  token : Nat
  fee : Nat
  bytes : List Nat
  deriving DecidableEq

/-- Deposit operation payload (opaque to this module). -/
structure DepositOp where
  payload : Nat
  deriving DecidableEq

/-- Transfer operation: carries a signature-bearing transaction. -/
structure TransferOp where
  tx : SigTx
  deriving DecidableEq

/-- Transfer-to-new operation: carries a signature-bearing transaction. -/
structure TransferToNewOp where
  tx : SigTx
  deriving DecidableEq

/-- Withdraw operation: carries a signature-bearing transaction. -/
structure WithdrawOp where
  tx : SigTx
  deriving DecidableEq

/-- Close-account operation: carries a signature-bearing transaction. -/
structure CloseOp where
  tx : SigTx
  deriving DecidableEq

/-- Full-exit operation: the optional withdraw amount decides the success
flag passed to the witness capability. -/
structure FullExitOp where
  withdraw_amount : Option Nat
  payload : Nat
  deriving DecidableEq

/-- Change-pubkey (offchain) operation payload (opaque to this module). -/
structure ChangePubKeyOp where
  payload : Nat
  deriving DecidableEq

/-- `models::node::FranklinOp`: the closed union of ledger operations. -/
inductive FranklinOp where
  | Deposit (op : DepositOp)
  | Transfer (op : TransferOp)
  | TransferToNew (op : TransferToNewOp)
  | Withdraw (op : WithdrawOp)
  | Close (op : CloseOp)
  | FullExit (op : FullExitOp)
  | ChangePubKeyOffchain (op : ChangePubKeyOp)
  | Noop (n : Nat)
  deriving DecidableEq

/-- `plasma::state::CollectedFee`. -/
structure CollectedFee where
  token : Nat
  amount : Nat
  deriving DecidableEq

/-- `circuit::witness::utils::WitnessBuilder` (external): the per-block
accumulator.  Field names follow the source. -/
structure WitnessBuilder where
  account_tree : CATree
  fee_account : Nat
  block_number : Nat
  operations : List SubOp
  pubdata : List Nat
  root_after_fees : Option Fr
  fee_account_balances : Option Nat
  fee_account_audit_path : Option Nat
  fee_account_witness : Option Nat
  pubdata_commitment : Option Fr
  deriving DecidableEq

/-- Modelled from the spec: `WitnessBuilder::new` (external `circuit` crate)
binds the tree, the block's fee account and the block number, and starts
with empty accumulators and unset finalization fields (§3: the accumulator
is ephemeral and block-scoped). -/
def WitnessBuilder.new (tree : CATree) (fee_account : Nat) (block_number : Nat) :
    WitnessBuilder :=
  { account_tree := tree
    fee_account := fee_account
    block_number := block_number
    operations := []
    pubdata := []
    root_after_fees := none
    fee_account_balances := none
    fee_account_audit_path := none
    fee_account_witness := none
    pubdata_commitment := none }

/-- The external collaborators used by `build_prover_data`: the per-variant
witness capabilities from the `circuit` crate, signature packing, the
`WitnessBuilder` methods and the configuration constant
`block_size_chunks`.  The theorems quantify over this record, so nothing is
assumed about the cryptography itself. -/
structure WEnv where
  block_size_chunks : Nat
  tree_of_state : AccountMap → CATree
  root_hash : CATree → Fr
  serialize_packed : Nat → Except String (List Nat)
  prepare_sig_data : List Nat → List Nat → Nat → Except String SigData
  get_pubdata : Wit → List Nat
  apply_deposit_tx : CATree → DepositOp → CATree × Wit
  calculate_deposit_operations_from_witness : Wit → List SubOp
  apply_transfer_tx : CATree → TransferOp → CATree × Wit
  calculate_transfer_operations_from_witness : Wit → SigData → List SubOp
  apply_transfer_to_new_tx : CATree → TransferToNewOp → CATree × Wit
  calculate_transfer_to_new_operations_from_witness : Wit → SigData → List SubOp
  apply_withdraw_tx : CATree → WithdrawOp → CATree × Wit
  calculate_withdraw_operations_from_witness : Wit → SigData → List SubOp
  apply_close_account_tx : CATree → CloseOp → CATree × Wit
  calculate_close_account_operations_from_witness : Wit → SigData → List SubOp
  apply_full_exit_tx : CATree → FullExitOp → Bool → CATree × Wit
  calculate_full_exit_operations_from_witness : Wit → List SubOp
  apply_change_pubkey_offchain_tx : CATree → ChangePubKeyOp → CATree × Wit
  calculate_change_pubkey_offchain_from_witness : Wit → List SubOp
  add_operation_with_pubdata : WitnessBuilder → List SubOp → List Nat → WitnessBuilder
  extend_pubdata_with_noops : WitnessBuilder → WitnessBuilder
  collect_fees : WitnessBuilder → List CollectedFee → WitnessBuilder
  calculate_pubdata_commitment : WitnessBuilder → WitnessBuilder
  fr_from_str : Nat → Option Fr

/-- The storage collaborator, as response functions:
`load_state_diff(from, to)`, `load_committed_state(at)` and
`get_block_operations(block)`. -/
structure StorageProcessor where
  load_state_diff : Nat → Option Nat → Except String (Option (Nat × StateDiff))
  load_committed_state : Option Nat → Except String (Nat × AccountMap)
  get_block_operations : Nat → Except String (List FranklinOp)

/-- `Maintainer::update_account_state`, acting on the cached
`account_state : Option (u32, AccountMap)`: diff-update an initialized
cache (left untouched when storage reports no diff), or fully load an
uninitialized one. -/
def update_account_state (storage : StorageProcessor)
    (account_state : Option (Nat × AccountMap)) (new_block : Nat) :
    Except String (Option (Nat × AccountMap)) :=
  match account_state with
  | some (block, state) =>
    match storage.load_state_diff block (some new_block) with
    | .error e => .error ("failed to load committed state: " ++ e)
    | .ok none => .ok (some (block, state))
    | .ok (some (_, state_diff)) =>
      .ok (some (new_block, apply_updates state state_diff))
  | none =>
    match storage.load_committed_state (some new_block) with
    | .error e => .error ("failed to load committed state: " ++ e)
    | .ok (block, accounts) => .ok (some (block, accounts))

/-- `Maintainer::build_account_tree`: fatal assertion if the cached state is
absent, otherwise the (external) tree construction from the snapshot. -/
def build_account_tree (env : WEnv) (account_state : Option (Nat × AccountMap)) :
    BResult CATree :=
  match account_state with
  | none => .fatal ("There is no state to build a circuit account tree")
  | some (_, state) => .ok (env.tree_of_state state)

/-- `2^32`, the modulus of `u32` arithmetic. -/
def u32Mod : Nat := 2 ^ 32

/-- Release-mode `u32` subtraction: wraps modulo `2^32`. -/
def u32_wrapping_sub (a b : Nat) : Nat :=
  (a % u32Mod + (u32Mod - b % u32Mod)) % u32Mod

/-- Debug-mode `u32` subtraction: panics (no result) on underflow. -/
def u32_checked_sub (a b : Nat) : Option Nat :=
  if b ≤ a then some (a - b) else none

/-- The height `block_number - 1` computed (in `u32` arithmetic) by
`build_prover_data` before updating the account state. -/
def prev_block_height (block_number : Nat) : Nat :=
  u32_wrapping_sub block_number 1

/-- One iteration of the operation-replay loop of `build_prover_data`:
threads the tree and extends the accumulated sub-operations, public-data
bytes and collected fees.  Signature packing and signature-data preparation
may fail with a recoverable error, as in the source. -/
def applyBlockOp (env : WEnv)
    (st : CATree × List SubOp × List Nat × List CollectedFee) (op : FranklinOp) :
    Except String (CATree × List SubOp × List Nat × List CollectedFee) :=
  match st with
  | (tree, operations, pub_data, fees) =>
    match op with
    | .Deposit deposit =>
      match env.apply_deposit_tx tree deposit with
      | (tree, w) =>
        .ok (tree, operations ++ env.calculate_deposit_operations_from_witness w,
             pub_data ++ env.get_pubdata w, fees)
    | .Transfer transfer =>
      match env.apply_transfer_tx tree transfer with
      | (tree, w) =>
        match env.serialize_packed transfer.tx.signature.signature with
        | .error e => .error ("failed to pack transaction signature " ++ e)
        | .ok sig_packed =>
          match env.prepare_sig_data sig_packed transfer.tx.bytes
              transfer.tx.signature.pub_key with
          | .error e => .error e
          | .ok sd =>
            .ok (tree,
                 operations ++ env.calculate_transfer_operations_from_witness w sd,
                 pub_data ++ env.get_pubdata w,
                 fees ++ [{ token := transfer.tx.token, amount := transfer.tx.fee }])
    | .TransferToNew transfer_to_new =>
      match env.apply_transfer_to_new_tx tree transfer_to_new with
      | (tree, w) =>
        match env.serialize_packed transfer_to_new.tx.signature.signature with
        | .error e => .error ("failed to pack transaction signature " ++ e)
        | .ok sig_packed =>
          match env.prepare_sig_data sig_packed transfer_to_new.tx.bytes
              transfer_to_new.tx.signature.pub_key with
          | .error e => .error e
          | .ok sd =>
            .ok (tree,
                 operations ++
                   env.calculate_transfer_to_new_operations_from_witness w sd,
                 pub_data ++ env.get_pubdata w,
                 fees ++ [{ token := transfer_to_new.tx.token,
                            amount := transfer_to_new.tx.fee }])
    | .Withdraw withdraw =>
      match env.apply_withdraw_tx tree withdraw with
      | (tree, w) =>
        match env.serialize_packed withdraw.tx.signature.signature with
        | .error e => .error ("failed to pack transaction signature " ++ e)
        | .ok sig_packed =>
          match env.prepare_sig_data sig_packed withdraw.tx.bytes
              withdraw.tx.signature.pub_key with
          | .error e => .error e
          | .ok sd =>
            .ok (tree,
                 operations ++ env.calculate_withdraw_operations_from_witness w sd,
                 pub_data ++ env.get_pubdata w,
                 fees ++ [{ token := withdraw.tx.token, amount := withdraw.tx.fee }])
    | .Close close =>
      match env.apply_close_account_tx tree close with
      | (tree, w) =>
        match env.serialize_packed close.tx.signature.signature with
        | .error e => .error ("failed to pack signature: " ++ e)
        | .ok sig_packed =>
          match env.prepare_sig_data sig_packed close.tx.bytes
              close.tx.signature.pub_key with
          | .error e => .error e
          | .ok sd =>
            .ok (tree,
                 operations ++
                   env.calculate_close_account_operations_from_witness w sd,
                 pub_data ++ env.get_pubdata w, fees)
    | .FullExit full_exit_op =>
      match env.apply_full_exit_tx tree full_exit_op
          full_exit_op.withdraw_amount.isSome with
      | (tree, w) =>
        .ok (tree, operations ++ env.calculate_full_exit_operations_from_witness w,
             pub_data ++ env.get_pubdata w, fees)
    | .ChangePubKeyOffchain change_pkhash_op =>
      match env.apply_change_pubkey_offchain_tx tree change_pkhash_op with
      | (tree, w) =>
        .ok (tree,
             operations ++ env.calculate_change_pubkey_offchain_from_witness w,
             pub_data ++ env.get_pubdata w, fees)
    | .Noop _ => .ok (tree, operations, pub_data, fees)

/-- The operation-replay loop over all block operations, starting from the
builder tree and empty accumulators. -/
def processBlockOps (env : WEnv) (tree : CATree) (ops : List FranklinOp) :
    Except String (CATree × List SubOp × List Nat × List CollectedFee) :=
  ops.foldlM (applyBlockOp env) (tree, [], [], [])

/-- Everything `build_prover_data` has produced by the moment it reaches the
two length assertions: the updated cached state, the initial root, the
accumulator after `add_operation_with_pubdata` and
`extend_pubdata_with_noops`, and the collected fees. -/
structure AccumOut where
  new_account_state : Option (Nat × AccountMap)
  initial_root : Fr
  builder : WitnessBuilder
  fees : List CollectedFee
  deriving DecidableEq

/-- First phase of `Maintainer::build_prover_data`, up to (but not
including) the length assertions: update the account state to
`block_number - 1` (computed in `u32` arithmetic), build the account tree,
record the initial root, fetch and replay the block operations, then append
the accumulated sub-operations and public data in one batch and pad with
no-ops. -/
def accumulate (env : WEnv) (storage : StorageProcessor)
    (account_state : Option (Nat × AccountMap)) (commit_operation : Operation) :
    BResult AccumOut :=
  let block_number := commit_operation.block.block_number
  match update_account_state storage account_state (prev_block_height block_number) with
  | .error e => .err e
  | .ok new_state =>
    match build_account_tree env new_state with
    | .err e => .err e
    | .fatal m => .fatal m
    | .ok account_tree =>
      let wa := WitnessBuilder.new account_tree commit_operation.block.fee_account
        block_number
      let initial_root := env.root_hash wa.account_tree
      match storage.get_block_operations block_number with
      | .error e => .err ("failed to get block operations " ++ e)
      | .ok ops =>
        match processBlockOps env wa.account_tree ops with
        | .error e => .err e
        | .ok (tree, operations, pub_data, fees) =>
          let wa1 := env.add_operation_with_pubdata { wa with account_tree := tree }
            operations pub_data
          let wa2 := env.extend_pubdata_with_noops wa1
          .ok { new_account_state := new_state, initial_root := initial_root,
                builder := wa2, fees := fees }

/-- Second phase of `Maintainer::build_prover_data`: the two length
assertions, fee folding, the root-consistency assertion against the commit
record, the public-data commitment, and assembly of the `ProverData`
bundle (every `unwrap` / `expect` is a fatal outcome). -/
def finishBuild (env : WEnv) (commit_operation : Operation) (acc : AccumOut) :
    BResult ProverData :=
  if acc.builder.pubdata.length = 64 * env.block_size_chunks then
    if acc.builder.operations.length = env.block_size_chunks then
      let wa := env.collect_fees acc.builder acc.fees
      match wa.root_after_fees with
      | none => .fatal ("root_after_fees not present")
      | some root_after_fees =>
        if root_after_fees = commit_operation.block.new_root_hash then
          let wa2 := env.calculate_pubdata_commitment wa
          match wa2.pubdata_commitment with
          | none => .fatal ("pubdata_commitment not present")
          | some public_data_commitment =>
            match env.fr_from_str commit_operation.block.fee_account with
            | none => .fatal ("failed to parse")
            | some validator_address =>
              match wa2.fee_account_balances, wa2.fee_account_audit_path,
                  wa2.fee_account_witness with
              | some validator_balances, some validator_audit_path,
                  some validator_account =>
                .ok { public_data_commitment := public_data_commitment
                      old_root := acc.initial_root
                      new_root := commit_operation.block.new_root_hash
                      validator_address := validator_address
                      operations := wa2.operations
                      validator_balances := validator_balances
                      validator_audit_path := validator_audit_path
                      validator_account := validator_account }
              | _, _, _ => .fatal ("fee account data not present")
        else .fatal ("assertion failed: root_after_fees equals new_root_hash")
    else .fatal ("assertion failed: operations length equals block_size_chunks")
  else .fatal ("assertion failed: pubdata length equals 64 mul block_size_chunks")

/-- `Maintainer::build_prover_data`: both phases; returns the updated
cached account state together with the bundle. -/
def build_prover_data (env : WEnv) (storage : StorageProcessor)
    (account_state : Option (Nat × AccountMap)) (commit_operation : Operation) :
    BResult (Option (Nat × AccountMap) × ProverData) :=
  match accumulate env storage account_state commit_operation with
  | .err e => .err e
  | .fatal m => .fatal m
  | .ok acc =>
    match finishBuild env commit_operation acc with
    | .err e => .err e
    | .fatal m => .fatal m
    | .ok pd => .ok (acc.new_account_state, pd)

/-- A concrete environment for witness instantiations: zero chunks per
block, empty witness outputs, fee folding reporting post-fee root `1`
(mismatching the commit records used with it). -/
def envMismatch : WEnv :=
  { block_size_chunks := 0
    tree_of_state := fun _ => 0
    root_hash := fun _ => 0
    serialize_packed := fun _ => .ok []
    prepare_sig_data := fun _ _ _ => .ok 0
    get_pubdata := fun _ => []
    apply_deposit_tx := fun t _ => (t, 0)
    calculate_deposit_operations_from_witness := fun _ => []
    apply_transfer_tx := fun t _ => (t, 0)
    calculate_transfer_operations_from_witness := fun _ _ => []
    apply_transfer_to_new_tx := fun t _ => (t, 0)
    calculate_transfer_to_new_operations_from_witness := fun _ _ => []
    apply_withdraw_tx := fun t _ => (t, 0)
    calculate_withdraw_operations_from_witness := fun _ _ => []
    apply_close_account_tx := fun t _ => (t, 0)
    calculate_close_account_operations_from_witness := fun _ _ => []
    apply_full_exit_tx := fun t _ _ => (t, 0)
    calculate_full_exit_operations_from_witness := fun _ => []
    apply_change_pubkey_offchain_tx := fun t _ => (t, 0)
    calculate_change_pubkey_offchain_from_witness := fun _ => []
    add_operation_with_pubdata := fun b ops pd =>
      { b with operations := b.operations ++ ops, pubdata := b.pubdata ++ pd }
    extend_pubdata_with_noops := fun b => b
    collect_fees := fun b _ =>
      { b with root_after_fees := some 1, fee_account_balances := some 0,
               fee_account_audit_path := some 0, fee_account_witness := some 0 }
    calculate_pubdata_commitment := fun b => { b with pubdata_commitment := some 0 }
    fr_from_str := fun n => some n }

/-- The same environment with fee folding reporting post-fee root `0`
(matching the commit records used with it), so that building succeeds. -/
def envOk : WEnv :=
  { envMismatch with
    collect_fees := fun b _ =>
      { b with root_after_fees := some 0, fee_account_balances := some 0,
               fee_account_audit_path := some 0, fee_account_witness := some 0 } }

/-- Trivial storage: no diffs, empty committed state at height `0`, no
block operations. -/
def stTriv : StorageProcessor :=
  { load_state_diff := fun _ _ => .ok none
    load_committed_state := fun _ => .ok (0, [])
    get_block_operations := fun _ => .ok [] }

/-- Concrete storage whose full load returns the mapping `{1 ↦ 2}` at the
requested height. -/
def stC3 : StorageProcessor :=
  { load_state_diff := fun _ _ => .ok none
    load_committed_state := fun h => .ok (h.getD 0, [(1, 2)])
    get_block_operations := fun _ => .ok [] }

/-- The accumulator output of `accumulate` on `envMismatch` / `envOk` with
trivial storage and commit block `1` (used by witnesses). -/
def accTriv : AccumOut :=
  { new_account_state := some (0, [])
    initial_root := 0
    builder := { account_tree := 0, fee_account := 0, block_number := 1,
                 operations := [], pubdata := [], root_after_fees := none,
                 fee_account_balances := none, fee_account_audit_path := none,
                 fee_account_witness := none, pubdata_commitment := none }
    fees := [] }

/-- The bundle `build_prover_data envOk stTriv none (mkOp 1)` produces. -/
def pdOk : ProverData :=
  { public_data_commitment := 0
    old_root := 0
    new_root := 0
    validator_address := 0
    operations := []
    validator_balances := 0
    validator_audit_path := 0
    validator_account := 0 }

/-! ## Helper lemmas -/

theorem hasCapacity_lt (p : ProversDataPool) :
    p.has_capacity = true ↔
      p.last_loaded - p.last_prepared + (p.prepared.length : Int) < p.limit := by
  simp [ProversDataPool.has_capacity]

theorem findFirst_fold_mem (l : List Int) :
    ∀ a : Int,
      l.foldl (fun first k => if first = 0 ∨ k < first then k else first) a = a ∨
      l.foldl (fun first k => if first = 0 ∨ k < first then k else first) a ∈ l := by
  induction l with
  | nil => intro a; left; rfl
  | cons k t ih =>
    intro a
    simp only [List.foldl_cons]
    rcases ih (if a = 0 ∨ k < a then k else a) with h | h
    · rw [h]
      split
      · right; exact List.mem_cons_self _ _
      · left; rfl
    · right; exact List.mem_cons_of_mem _ h

theorem findFirst_fold_le (l : List Int) :
    ∀ a : Int, 1 ≤ a → (∀ k ∈ l, 1 ≤ k) →
      l.foldl (fun first k => if first = 0 ∨ k < first then k else first) a ≤ a ∧
      (∀ k ∈ l,
        l.foldl (fun first k => if first = 0 ∨ k < first then k else first) a ≤ k) := by
  induction l with
  | nil => intro a _ _; exact ⟨le_refl a, by intro k hk; simp at hk⟩
  | cons k t ih =>
    intro a ha hpos
    have hk1 : 1 ≤ k := hpos k (List.mem_cons_self _ _)
    have hstep : (if a = 0 ∨ k < a then k else a) ≤ a ∧
        (if a = 0 ∨ k < a then k else a) ≤ k ∧
        1 ≤ (if a = 0 ∨ k < a then k else a) := by
      split
      · next h =>
        rcases h with h0 | hlt
        · omega
        · exact ⟨le_of_lt hlt, le_refl k, hk1⟩
      · next h =>
        push_neg at h
        exact ⟨le_refl a, h.2, ha⟩
    obtain ⟨hih1, hih2⟩ :=
      ih (if a = 0 ∨ k < a then k else a) hstep.2.2
        (fun x hx => hpos x (List.mem_cons_of_mem _ hx))
    simp only [List.foldl_cons]
    refine ⟨le_trans hih1 hstep.1, ?_⟩
    intro x hx
    rcases List.mem_cons.mp hx with rfl | hx
    · exact le_trans hih1 hstep.2.1
    · exact hih2 x hx

theorem findFirst_mem_of_ne_nil (l : List Int) (hne : l ≠ []) :
    findFirst l ∈ l := by
  cases l with
  | nil => exact absurd rfl hne
  | cons k t =>
    have h0 : findFirst (k :: t) =
        t.foldl (fun first k => if first = 0 ∨ k < first then k else first) k := by
      unfold findFirst
      simp only [List.foldl_cons]
      congr 1
    rw [h0]
    rcases findFirst_fold_mem t k with h | h
    · rw [h]; exact List.mem_cons_self _ _
    · exact List.mem_cons_of_mem _ h

theorem findFirst_min (l : List Int) (hpos : ∀ k ∈ l, 1 ≤ k) :
    ∀ k ∈ l, findFirst l ≤ k := by
  cases l with
  | nil => intro k hk; simp at hk
  | cons k t =>
    have h0 : findFirst (k :: t) =
        t.foldl (fun first k => if first = 0 ∨ k < first then k else first) k := by
      unfold findFirst
      simp only [List.foldl_cons]
      congr 1
    rw [h0]
    have hk1 : 1 ≤ k := hpos k (List.mem_cons_self _ _)
    obtain ⟨h1, h2⟩ :=
      findFirst_fold_le t k hk1 (fun x hx => hpos x (List.mem_cons_of_mem _ hx))
    intro x hx
    rcases List.mem_cons.mp hx with rfl | hx
    · exact h1
    · exact h2 x hx

theorem alGet_isSome_of_mem {κ α : Type} [DecidableEq κ] (l : List (κ × α)) (k : κ)
    (h : k ∈ l.map Prod.fst) : ∃ v, alGet l k = some v := by
  induction l with
  | nil => simp at h
  | cons e rest ih =>
    by_cases hek : e.1 = k
    · exact ⟨e.2, by simp [alGet, hek]⟩
    · have : k ∈ rest.map Prod.fst := by
        rcases List.mem_cons.mp h with h1 | h1
        · exact absurd h1.symm hek
        · exact h1
      obtain ⟨v, hv⟩ := ih this
      exact ⟨v, by simp [alGet, hek, hv]⟩

theorem alGet_some_mem {κ α : Type} [DecidableEq κ] (l : List (κ × α)) (k : κ) (v : α)
    (h : alGet l k = some v) : (k, v) ∈ l := by
  induction l with
  | nil => simp [alGet] at h
  | cons e rest ih =>
    obtain ⟨e1, e2⟩ := e
    by_cases hek : e1 = k
    · subst hek
      simp only [alGet, if_pos rfl] at h
      injection h with h2
      subst h2
      exact List.mem_cons_self _ _
    · simp only [alGet, if_neg hek] at h
      exact List.mem_cons_of_mem _ (ih h)

theorem take_next_eq_of_alGet_some (p : ProversDataPool) (v : Operation)
    (h : alGet p.operations (findFirst (p.operations.map Prod.fst)) = some v) :
    p.take_next_to_prove =
      .ok (v, { p with
        operations := alRemove p.operations (findFirst (p.operations.map Prod.fst)) }) := by
  unfold ProversDataPool.take_next_to_prove
  simp only [h]

/-! ## Claim theorems: pool operations -/

/-- C5: `has_capacity()` returns `true` iff
`last_loaded - last_prepared + prepared.len() < limit`, and `false` iff that
quantity is at least `limit`; since it is a pure function of the pool state,
this holds after arbitrary sequences of store/prepare/clean-up operations. -/
theorem C5_has_capacity_iff (p : ProversDataPool) :
    (p.has_capacity = true ↔
      p.last_loaded - p.last_prepared + (p.prepared.length : Int) < p.limit) ∧
    (p.has_capacity = false ↔
      p.limit ≤ p.last_loaded - p.last_prepared + (p.prepared.length : Int)) := by
  refine ⟨hasCapacity_lt p, ?_⟩
  rw [← Bool.not_eq_true, hasCapacity_lt p, not_lt]

/-- C4 counterexample: with pending block numbers `{0, 5}` and `HashMap`
iteration visiting key `0` first, `take_next_to_prove` returns the operation
with block number `5` even though block `0` is pending and `0 < 5` — the
`first_from_loaded = 0` sentinel conflates "unset" with key `0`. -/
theorem C4_counterexample :
    c4pool.take_next_to_prove =
      .ok (mkOp 5, { c4pool with operations := [(0, mkOp 0)] }) ∧
    (0 : Int) ∈ c4pool.operations.map Prod.fst ∧ ¬ ((5 : Int) ≤ (0 : Int)) := by
  refine ⟨rfl, by decide, by decide⟩

/-- C4 (amended): provided every pending block number is at least `1` (which
holds for every operation the maintainer actually stores, since stored blocks
are strictly greater than the initial `last_loaded = 0`), `take_next_to_prove`
removes and returns the operation with the smallest pending block number, and
on an empty pending map it returns the `"data is inconsistent"` error.  As
literally stated the claim fails when block number `0` is pending together
with a larger one, because of the `first_from_loaded = 0` sentinel. -/
theorem C4_take_next_min (p : ProversDataPool)
    (hpos : ∀ k ∈ p.operations.map Prod.fst, 1 ≤ k) :
    (p.operations = [] →
      p.take_next_to_prove = .error ("data is inconsistent")) ∧
    (∀ v p1, p.take_next_to_prove = .ok (v, p1) →
      ∃ m, (m, v) ∈ p.operations ∧
        (∀ k ∈ p.operations.map Prod.fst, m ≤ k) ∧
        p1 = { p with operations := alRemove p.operations m }) ∧
    (p.operations ≠ [] → ∃ v p1, p.take_next_to_prove = .ok (v, p1)) := by
  refine ⟨?_, ?_, ?_⟩
  · intro h
    simp [ProversDataPool.take_next_to_prove, h, findFirst, alGet]
  · intro v p1 h
    cases hget : alGet p.operations (findFirst (p.operations.map Prod.fst)) with
    | none =>
      have herr : p.take_next_to_prove = .error ("data is inconsistent") := by
        unfold ProversDataPool.take_next_to_prove
        simp only [hget]
      rw [herr] at h
      exact absurd h (by simp)
    | some w =>
      rw [take_next_eq_of_alGet_some p w hget] at h
      simp only [Except.ok.injEq, Prod.mk.injEq] at h
      obtain ⟨hv, hp1⟩ := h
      refine ⟨findFirst (p.operations.map Prod.fst), ?_, ?_, hp1.symm⟩
      · rw [← hv]; exact alGet_some_mem _ _ _ hget
      · exact findFirst_min _ hpos
  · intro hne
    have hkeys : p.operations.map Prod.fst ≠ [] := by
      simpa [List.map_eq_nil_iff] using hne
    obtain ⟨v, hv⟩ :=
      alGet_isSome_of_mem p.operations _ (findFirst_mem_of_ne_nil _ hkeys)
    exact ⟨v, _, take_next_eq_of_alGet_some p v hv⟩

/-- C4 witness: the amended theorem applied to a concrete pool whose single
pending block is `3`. -/
theorem C4_take_next_min_w :
    ∃ v p1,
      ({ ProversDataPool.new with
         operations := [((3 : Int), mkOp 3)] } : ProversDataPool).take_next_to_prove =
        .ok (v, p1) :=
  (C4_take_next_min
      { ProversDataPool.new with operations := [((3 : Int), mkOp 3)] }
      (by decide)).2.2 (by decide)

/-- C6: for every sequence of `store_to_prove` calls with strictly increasing
block numbers, after each call `last_loaded` equals the block number of the
most recently stored operation and that operation is present in the pending
map under its block number. -/
theorem C6_store_sequence (p : ProversDataPool) (ops : List Operation)
    (_hinc : (ops.map (fun o => (o.block.block_number : Int))).Pairwise (· < ·)) :
    ∀ k (hk : k < ops.length),
      (storeAll p (ops.take (k + 1))).last_loaded =
        ((ops.get ⟨k, hk⟩).block.block_number : Int) ∧
      alGet (storeAll p (ops.take (k + 1))).operations
          ((ops.get ⟨k, hk⟩).block.block_number : Int) =
        some (ops.get ⟨k, hk⟩) := by
  intro k hk
  have htake : ops.take (k + 1) = ops.take k ++ [ops.get ⟨k, hk⟩] := by
    have h1 := List.take_concat_get ops k hk
    rw [List.concat_eq_append] at h1
    exact h1.symm
  have hsplit : storeAll p (ops.take (k + 1)) =
      (storeAll p (ops.take k)).store_to_prove (ops.get ⟨k, hk⟩) := by
    unfold storeAll
    rw [htake, List.foldl_append]
    rfl
  rw [hsplit]
  exact ⟨rfl, by simp [ProversDataPool.store_to_prove, alInsert, alGet]⟩

/-- C6 witness: storing blocks `1` then `3` into a fresh pool; after the
second call `last_loaded = 3` and block `3` is pending. -/
theorem C6_store_sequence_w :
    (storeAll ProversDataPool.new ([mkOp 1, mkOp 3].take (1 + 1))).last_loaded =
      ((([mkOp 1, mkOp 3].get ⟨1, by decide⟩) : Operation).block.block_number : Int) ∧
    alGet (storeAll ProversDataPool.new ([mkOp 1, mkOp 3].take (1 + 1))).operations
        ((([mkOp 1, mkOp 3].get ⟨1, by decide⟩) : Operation).block.block_number : Int) =
      some ([mkOp 1, mkOp 3].get ⟨1, by decide⟩) :=
  C6_store_sequence ProversDataPool.new [mkOp 1, mkOp 3] (by decide) 1 (by decide)

/-- C8: `prepare_next` checks `all_prepared` (pending map emptiness) before
invoking `take_next_to_prove` and returns `Ok` with the pool unchanged in
that case; and whenever the pending map is non-empty, `take_next_to_prove`
succeeds, so its `"data is inconsistent"` branch is unreachable from the
maintainer loop. -/
theorem C8_prepare_next_safe (build : Operation → Except String ProverData)
    (p : ProversDataPool) :
    (p.all_prepared = true → prepare_next build p = .ok p) ∧
    (p.all_prepared = false →
      ∃ v p1, p.take_next_to_prove = .ok (v, p1)) := by
  constructor
  · intro h
    simp [prepare_next, h]
  · intro h
    have hne : p.operations ≠ [] := by
      intro hnil
      rw [ProversDataPool.all_prepared, hnil] at h
      exact absurd h (by decide)
    have hkeys : p.operations.map Prod.fst ≠ [] := by
      simpa [List.map_eq_nil_iff] using hne
    obtain ⟨v, hv⟩ :=
      alGet_isSome_of_mem p.operations _ (findFirst_mem_of_ne_nil _ hkeys)
    exact ⟨v, _, take_next_eq_of_alGet_some p v hv⟩

/-- C8 witness: the theorem applied to a fresh (empty) pool with a trivial
build function — `prepare_next` returns `Ok` and leaves the pool unchanged. -/
theorem C8_prepare_next_safe_w :
    prepare_next (fun _ => Except.error ("unused")) ProversDataPool.new =
      .ok ProversDataPool.new :=
  (C8_prepare_next_safe (fun _ => Except.error ("unused")) ProversDataPool.new).1 rfl

/-! ## Claim C1: the look-ahead bound -/

theorem storeAll_fields (ops : List Operation) :
    ∀ p : ProversDataPool,
      (storeAll p ops).last_prepared = p.last_prepared ∧
      (storeAll p ops).prepared = p.prepared ∧
      (storeAll p ops).limit = p.limit := by
  induction ops with
  | nil => intro p; exact ⟨rfl, rfl, rfl⟩
  | cons op rest ih => intro p; exact ih (p.store_to_prove op)

theorem storeAll_last_loaded (ops : List Operation) :
    ∀ p : ProversDataPool, contiguousBlocks (p.last_loaded + 1) ops = true →
      (storeAll p ops).last_loaded = p.last_loaded + ops.length := by
  induction ops with
  | nil => intro p _; simp [storeAll]
  | cons op rest ih =>
    intro p h
    simp only [contiguousBlocks, Bool.and_eq_true, beq_iff_eq] at h
    obtain ⟨h1, h2⟩ := h
    have h2x : contiguousBlocks ((p.store_to_prove op).last_loaded + 1) rest = true := by
      show contiguousBlocks ((op.block.block_number : Int) + 1) rest = true
      rw [h1]
      exact h2
    have hrest := ih (p.store_to_prove op) h2x
    have hfin : (storeAll p (op :: rest)).last_loaded =
        (p.store_to_prove op).last_loaded + rest.length := hrest
    rw [hfin]
    show (op.block.block_number : Int) + rest.length = p.last_loaded + ((rest.length : Int) + 1)
    rw [h1]
    ring

theorem take_next_fields (p p1 : ProversDataPool) (v : Operation)
    (h : p.take_next_to_prove = .ok (v, p1)) :
    p1.last_prepared = p.last_prepared ∧ p1.last_loaded = p.last_loaded ∧
    p1.prepared = p.prepared ∧ p1.limit = p.limit := by
  cases hget : alGet p.operations (findFirst (p.operations.map Prod.fst)) with
  | none =>
    have herr : p.take_next_to_prove = .error ("data is inconsistent") := by
      unfold ProversDataPool.take_next_to_prove
      simp only [hget]
    rw [herr] at h
    exact absurd h (by simp)
  | some w =>
    rw [take_next_eq_of_alGet_some p w hget] at h
    simp only [Except.ok.injEq, Prod.mk.injEq] at h
    obtain ⟨_, hp1⟩ := h
    rw [← hp1]
    exact ⟨rfl, rfl, rfl, rfl⟩

theorem alRemove_length_le {κ α : Type} [DecidableEq κ] (l : List (κ × α)) (k : κ) :
    (alRemove l k).length ≤ l.length := by
  induction l with
  | nil => simp [alRemove]
  | cons e rest ih =>
    by_cases hek : e.1 = k
    · simp [alRemove, hek]
    · simp only [alRemove, if_neg hek, List.length_cons]
      omega

theorem alInsert_length_le {κ α : Type} [DecidableEq κ] (l : List (κ × α)) (k : κ) (v : α) :
    (alInsert l k v).length ≤ l.length + 1 := by
  simp only [alInsert, List.length_cons]
  have := alRemove_length_le l k
  omega

theorem poolStep_preserves (p q : ProversDataPool) (hstep : PoolStep p q) :
    q.limit = p.limit ∧
    (poolQuantity p ≤ 2 * p.limit - 1 → poolQuantity q ≤ 2 * p.limit - 1) := by
  cases hstep with
  | load ops hcap hlen hcontig =>
    obtain ⟨hlp, hprep, hlim⟩ := storeAll_fields ops p
    have hll := storeAll_last_loaded ops p hcontig
    refine ⟨hlim, ?_⟩
    intro _
    have hcap2 : poolQuantity p < p.limit := (hasCapacity_lt p).mp hcap
    have hq : poolQuantity (storeAll p ops) = poolQuantity p + ops.length := by
      unfold poolQuantity
      rw [hll, hlp, hprep]
      ring
    rw [hq]
    omega
  | prepare_empty h => exact ⟨rfl, fun hq => hq⟩
  | prepare_success p1 v pd h htake =>
    obtain ⟨hlp, hll, hprep, hlim⟩ := take_next_fields p p1 v htake
    refine ⟨hlim, ?_⟩
    intro hq
    unfold poolQuantity at hq ⊢
    show p1.last_loaded - (p1.last_prepared + 1) +
        ((alInsert p1.prepared ((v.block.block_number : Nat) : Int) pd).length : Int) ≤
      2 * p.limit - 1
    have hins := alInsert_length_le p1.prepared ((v.block.block_number : Nat) : Int) pd
    rw [hll, hlp, hprep] at *
    omega
  | prepare_fail p1 v h htake =>
    obtain ⟨hlp, hll, hprep, hlim⟩ := take_next_fields p q v htake
    refine ⟨hlim, ?_⟩
    intro hq
    unfold poolQuantity at hq ⊢
    rw [hll, hlp, hprep]
    exact hq
  | clean b =>
    refine ⟨rfl, ?_⟩
    intro hq
    unfold poolQuantity at hq ⊢
    have := alRemove_length_le p.prepared b
    simp only [ProversDataPool.clean_up]
    omega

/-- C1 counterexample: from a freshly constructed pool, loading the batch of
blocks `1..9` (capacity `0 < 10` holds) and then — since
`9 - 0 + 0 < 10` still reports capacity — the batch of blocks `10..19`
(ten operations, the `limit` passed to the storage query) drives
`prepared.len() + (last_loaded - last_prepared)` to `19 > 10 = limit`:
the claimed invariant is violated by two legal maintainer steps. -/
theorem C1_counterexample :
    Relation.ReflTransGen PoolStep ProversDataPool.new c1pool2 ∧
    poolQuantity c1pool2 > c1pool2.limit := by
  constructor
  · have s1 : PoolStep ProversDataPool.new c1pool1 :=
      PoolStep.load ProversDataPool.new c1batch1 (by decide) (by decide) (by decide)
    have s2 : PoolStep c1pool1 c1pool2 :=
      PoolStep.load c1pool1 c1batch2 (by decide) (by decide) (by decide)
    exact Relation.ReflTransGen.tail
      (Relation.ReflTransGen.tail Relation.ReflTransGen.refl s1) s2
  · decide

/-- C1 (amended): along every sequence of maintainer cycles (capacity check,
contiguous `take_next_commits` batches of at most `limit` operations,
`prepare_next`) and consumer `clean_up` calls starting from a freshly
constructed pool, the quantity `prepared.len() + (last_loaded - last_prepared)`
never exceeds `2 * limit - 1` after any step.  The originally claimed bound
`limit` is violated (see the counterexample): the capacity check only
guarantees the quantity was below `limit` before a batch of up to `limit`
further operations is loaded. -/
theorem C1_lookahead_bound (p : ProversDataPool)
    (hreach : Relation.ReflTransGen PoolStep ProversDataPool.new p) :
    poolQuantity p ≤ 2 * p.limit - 1 := by
  induction hreach with
  | refl => decide
  | tail hr hstep ih =>
    rw [(poolStep_preserves _ _ hstep).1]
    exact (poolStep_preserves _ _ hstep).2 ih

/-- C1 witness: the amended bound applied to the freshly constructed pool
(the reflexive trace). -/
theorem C1_lookahead_bound_w :
    poolQuantity ProversDataPool.new ≤ 2 * ProversDataPool.new.limit - 1 :=
  C1_lookahead_bound ProversDataPool.new Relation.ReflTransGen.refl

/-! ## Claims C2, C3, C7, C9, C10: the witness-building pipeline -/

theorem finishBuild_ok_props (env : WEnv) (c : Operation) (acc : AccumOut)
    (pd : ProverData) (h : finishBuild env c acc = .ok pd) :
    pd.new_root = c.block.new_root_hash ∧
    acc.builder.pubdata.length = 64 * env.block_size_chunks ∧
    acc.builder.operations.length = env.block_size_chunks := by
  simp only [finishBuild] at h
  split_ifs at h with h1 h2
  · refine ⟨?_, h1, h2⟩
    repeat' split at h
    all_goals
      first
        | exact BResult.noConfusion h
        | (injection h with h2x; subst h2x; rfl)

theorem finishBuild_fatal_of_bad_lengths (env : WEnv) (c : Operation)
    (acc : AccumOut)
    (h : acc.builder.pubdata.length ≠ 64 * env.block_size_chunks ∨
         acc.builder.operations.length ≠ env.block_size_chunks) :
    ∃ m, finishBuild env c acc = .fatal m := by
  by_cases h1 : acc.builder.pubdata.length = 64 * env.block_size_chunks
  · by_cases h2 : acc.builder.operations.length = env.block_size_chunks
    · rcases h with h | h
      · exact absurd h1 h
      · exact absurd h2 h
    · exact ⟨_, by unfold finishBuild; rw [if_pos h1, if_neg h2]⟩
  · exact ⟨_, by unfold finishBuild; rw [if_neg h1]⟩

theorem finishBuild_fatal_of_root_mismatch (env : WEnv) (c : Operation)
    (acc : AccumOut) (raf : Fr)
    (hraf : (env.collect_fees acc.builder acc.fees).root_after_fees = some raf)
    (hne : raf ≠ c.block.new_root_hash) :
    ∃ m, finishBuild env c acc = .fatal m := by
  by_cases h1 : acc.builder.pubdata.length = 64 * env.block_size_chunks
  · by_cases h2 : acc.builder.operations.length = env.block_size_chunks
    · have hfin : finishBuild env c acc =
          .fatal ("assertion failed: root_after_fees equals new_root_hash") := by
        unfold finishBuild
        rw [if_pos h1, if_pos h2]
        simp only [hraf]
        rw [if_neg hne]
      exact ⟨_, hfin⟩
    · exact ⟨_, by unfold finishBuild; rw [if_pos h1, if_neg h2]⟩
  · exact ⟨_, by unfold finishBuild; rw [if_neg h1]⟩

/-- C2: once the accumulation phase has succeeded, (a) whenever the locally
recomputed post-fee root (the `root_after_fees` produced by `collect_fees`)
differs from the commit record's stored `new_root_hash`, `build_prover_data`
ends fatally (assertion) and returns no bundle; and (b) whenever it does
return a bundle, the bundle's `new_root` field equals — and is taken
literally from — the commit record's stored root. -/
theorem C2_root_check (env : WEnv) (storage : StorageProcessor)
    (account_state : Option (Nat × AccountMap)) (commit_operation : Operation)
    (acc : AccumOut)
    (hacc : accumulate env storage account_state commit_operation = .ok acc) :
    ((∃ raf, (env.collect_fees acc.builder acc.fees).root_after_fees = some raf ∧
        raf ≠ commit_operation.block.new_root_hash) →
      ∃ m, build_prover_data env storage account_state commit_operation = .fatal m) ∧
    (∀ res, build_prover_data env storage account_state commit_operation = .ok res →
      res.2.new_root = commit_operation.block.new_root_hash) := by
  constructor
  · rintro ⟨raf, hraf, hne⟩
    obtain ⟨m, hm⟩ :=
      finishBuild_fatal_of_root_mismatch env commit_operation acc raf hraf hne
    exact ⟨m, by simp only [build_prover_data, hacc, hm]⟩
  · intro res hres
    cases hfin : finishBuild env commit_operation acc with
    | err e =>
      simp only [build_prover_data, hacc, hfin] at hres
      exact BResult.noConfusion hres
    | fatal m =>
      simp only [build_prover_data, hacc, hfin] at hres
      exact BResult.noConfusion hres
    | ok pd =>
      simp only [build_prover_data, hacc, hfin, BResult.ok.injEq] at hres
      rw [← hres]
      exact (finishBuild_ok_props env commit_operation acc pd hfin).1

/-- C2 witness: with a concrete environment whose fee folding reports root
`1` against a commit record storing root `0`, building fails fatally. -/
theorem C2_root_check_w :
    ∃ m, build_prover_data envMismatch stTriv none (mkOp 1) = .fatal m :=
  (C2_root_check envMismatch stTriv none (mkOp 1) accTriv (by decide)).1
    ⟨1, by decide, by decide⟩

/-- C3: `update_account_state(target)` behaves as claimed: on an
uninitialized cache it performs a full load and caches `(target, mapping)`
(using that the storage contract returns the mapping at the requested
height); on an initialized cache with no diff returned the cached pair is
left completely unchanged; on an initialized cache with a diff returned the
cache is replaced by `(target, old mapping with the diff's mutations applied
in order)`. -/
theorem C3_update_account_state (storage : StorageProcessor)
    (account_state : Option (Nat × AccountMap)) (target : Nat) :
    (account_state = none →
      ∀ m, storage.load_committed_state (some target) = .ok (target, m) →
        update_account_state storage account_state target = .ok (some (target, m))) ∧
    (∀ h s, account_state = some (h, s) →
      storage.load_state_diff h (some target) = .ok none →
        update_account_state storage account_state target = .ok (some (h, s))) ∧
    (∀ h s hd d, account_state = some (h, s) →
      storage.load_state_diff h (some target) = .ok (some (hd, d)) →
        update_account_state storage account_state target =
          .ok (some (target, apply_updates s d))) := by
  refine ⟨?_, ?_, ?_⟩
  · rintro rfl m hm
    simp [update_account_state, hm]
  · rintro h s rfl hdiff
    simp [update_account_state, hdiff]
  · rintro h s hd d rfl hdiff
    simp [update_account_state, hdiff]

/-- C3 witness: uninitialized cache, full load at height `7` caches
`(7, {1 ↦ 2})`. -/
theorem C3_update_account_state_w :
    update_account_state stC3 none 7 = .ok (some (7, [(1, 2)])) :=
  (C3_update_account_state stC3 none 7).1 rfl [(1, 2)] rfl

/-- C7: once the accumulation phase has succeeded, `build_prover_data`
returns successfully only if the accumulated (batched and padded)
public-data byte stream has length exactly `64 * block_size_chunks` and the
accumulated sub-operation sequence has length exactly `block_size_chunks`;
any other length produces a fatal assertion outcome instead of a returned
bundle. -/
theorem C7_padded_lengths (env : WEnv) (storage : StorageProcessor)
    (account_state : Option (Nat × AccountMap)) (commit_operation : Operation)
    (acc : AccumOut)
    (hacc : accumulate env storage account_state commit_operation = .ok acc) :
    ((∃ res, build_prover_data env storage account_state commit_operation = .ok res) →
      acc.builder.pubdata.length = 64 * env.block_size_chunks ∧
      acc.builder.operations.length = env.block_size_chunks) ∧
    (acc.builder.pubdata.length ≠ 64 * env.block_size_chunks ∨
        acc.builder.operations.length ≠ env.block_size_chunks →
      ∃ m, build_prover_data env storage account_state commit_operation = .fatal m) := by
  constructor
  · rintro ⟨res, hres⟩
    cases hfin : finishBuild env commit_operation acc with
    | err e =>
      simp only [build_prover_data, hacc, hfin] at hres
      exact BResult.noConfusion hres
    | fatal m =>
      simp only [build_prover_data, hacc, hfin] at hres
      exact BResult.noConfusion hres
    | ok pd =>
      exact (finishBuild_ok_props env commit_operation acc pd hfin).2
  · intro h
    obtain ⟨m, hm⟩ := finishBuild_fatal_of_bad_lengths env commit_operation acc h
    exact ⟨m, by simp only [build_prover_data, hacc, hm]⟩

/-- C7 witness: with the matching-root environment (zero chunks per block)
building succeeds, and the accumulated stream and sub-operation sequence
have the exact required lengths. -/
theorem C7_padded_lengths_w :
    accTriv.builder.pubdata.length = 64 * envOk.block_size_chunks ∧
    accTriv.builder.operations.length = envOk.block_size_chunks :=
  (C7_padded_lengths envOk stTriv none (mkOp 1) accTriv (by decide)).1
    ⟨(accTriv.new_account_state, pdOk), by decide⟩

/-- C9: `build_prover_data` is deterministic — two runs from equal cached
account snapshots, equal storage responses, equal external capabilities and
equal commit records produce identical accumulation outputs (hence
byte-identical public-data streams), identical post-fee roots, and
identical overall results. -/
theorem C9_deterministic (env1 env2 : WEnv) (st1 st2 : StorageProcessor)
    (a1 a2 : Option (Nat × AccountMap)) (c1 c2 : Operation)
    (henv : env1 = env2) (hst : st1 = st2) (ha : a1 = a2) (hc : c1 = c2) :
    accumulate env1 st1 a1 c1 = accumulate env2 st2 a2 c2 ∧
    (∀ acc1 acc2, accumulate env1 st1 a1 c1 = .ok acc1 →
      accumulate env2 st2 a2 c2 = .ok acc2 →
      acc1.builder.pubdata = acc2.builder.pubdata ∧
      (env1.collect_fees acc1.builder acc1.fees).root_after_fees =
        (env2.collect_fees acc2.builder acc2.fees).root_after_fees) ∧
    build_prover_data env1 st1 a1 c1 = build_prover_data env2 st2 a2 c2 := by
  subst henv
  subst hst
  subst ha
  subst hc
  refine ⟨rfl, ?_, rfl⟩
  intro acc1 acc2 h1 h2
  rw [h1] at h2
  injection h2 with h3
  subst h3
  exact ⟨rfl, rfl⟩

/-- C9 witness: the determinism theorem instantiated at a concrete
environment, storage, snapshot and commit record. -/
theorem C9_deterministic_w :
    accumulate envOk stTriv none (mkOp 1) = accumulate envOk stTriv none (mkOp 1) ∧
    (∀ acc1 acc2, accumulate envOk stTriv none (mkOp 1) = .ok acc1 →
      accumulate envOk stTriv none (mkOp 1) = .ok acc2 →
      acc1.builder.pubdata = acc2.builder.pubdata ∧
      (envOk.collect_fees acc1.builder acc1.fees).root_after_fees =
        (envOk.collect_fees acc2.builder acc2.fees).root_after_fees) ∧
    build_prover_data envOk stTriv none (mkOp 1) =
      build_prover_data envOk stTriv none (mkOp 1) :=
  C9_deterministic envOk envOk stTriv stTriv none none (mkOp 1) (mkOp 1)
    rfl rfl rfl rfl

/-- C10: `build_prover_data` computes `block_number - 1` in unsigned 32-bit
arithmetic (`prev_block_height`) before updating the account state.  For
`block_number = 0` the subtraction underflows: it panics in debug builds
(checked subtraction has no result) and wraps to `2^32 - 1` in release
builds, instead of producing a meaningful prior height; for every
`1 ≤ block_number < 2^32` it is well defined and yields `block_number - 1`
in both modes. -/
theorem C10_block_height_underflow :
    prev_block_height 0 = 2 ^ 32 - 1 ∧
    u32_checked_sub 0 1 = none ∧
    (∀ bn : Nat, 1 ≤ bn → bn < 2 ^ 32 →
      prev_block_height bn = bn - 1 ∧ u32_checked_sub bn 1 = some (bn - 1)) := by
  refine ⟨?_, rfl, ?_⟩
  · show ((0 % 2 ^ 32 + (2 ^ 32 - 1 % 2 ^ 32)) % 2 ^ 32 : Nat) = 2 ^ 32 - 1
    norm_num
  · intro bn hb1 hb2
    refine ⟨?_, ?_⟩
    · show ((bn % 2 ^ 32 + (2 ^ 32 - 1 % 2 ^ 32)) % 2 ^ 32 : Nat) = bn - 1
      have hpow : (2 : Nat) ^ 32 = 4294967296 := by norm_num
      rw [hpow] at hb2 ⊢
      omega
    · show (if 1 ≤ bn then some (bn - 1) else none) = some (bn - 1)
      rw [if_pos hb1]

/-- C10 witness: at `block_number = 5` both subtraction modes yield `4`. -/
theorem C10_block_height_underflow_w :
    prev_block_height 5 = 4 ∧ u32_checked_sub 5 1 = some 4 :=
  C10_block_height_underflow.2.2 5 (by decide) (by decide)

end ZkPool
